import Mathlib

/-!
Verification of the expression-language core of `SWP-Go-Examples.go`:
the AST (`Exp`), the tagged result value (`Val`), the printer (`pretty`),
the evaluator (`eval`) and the display helper (`showVal`).

The Go `int` is a 64-bit two's-complement machine integer; we embed it as
`Int` together with an explicit wrap-around (`wrapInt`) applied at the
arithmetic operations, and a range predicate (`inIntRange`) describing the
values a Go `int` can hold.
-/

namespace SWPGo

/-- The tags of the tagged union `Val` (Go: `type Kind int` with the constants
`ValueInt = 0`, `ValueBool = 1`, `Undefined = 2`). -/
inductive Kind where
  | ValueInt
  | ValueBool
  | Undefined
  deriving DecidableEq, Repr

/-- The result value of evaluation (Go: `type Val struct { flag Kind; valI int; valB bool }`). -/
structure Val where
  flag : Kind
  valI : Int
  valB : Bool
  deriving DecidableEq, Repr

/-- Go: `func mkInt(x int) Val` — the omitted field `valB` gets Go's zero value `false`. -/
def mkInt (x : Int) : Val := ⟨Kind.ValueInt, x, false⟩

/-- Go: `func mkBool(x bool) Val` — the omitted field `valI` gets Go's zero value `0`. -/
def mkBool (x : Bool) : Val := ⟨Kind.ValueBool, 0, x⟩

/-- Go: `func mkUndefined() Val` — both payload fields get their zero values. -/
def mkUndefined : Val := ⟨Kind.Undefined, 0, false⟩

/-- Two's-complement wrap-around of Go's 64-bit `int` arithmetic. -/
def wrapInt (n : Int) : Int := (n + 2 ^ 63) % 2 ^ 64 - 2 ^ 63

/-- The values representable by Go's 64-bit `int`. -/
def inIntRange (n : Int) : Prop := -(2 ^ 63) ≤ n ∧ n < 2 ^ 63

instance (n : Int) : Decidable (inIntRange n) := by
  unfold inIntRange
  infer_instance

/-- The AST of the expression language (Go: the interface `Exp` with the six
concrete cases `Num`, `Bool`, `Mult`, `Plus`, `And`, `Or`). -/
inductive Exp where
  | Num (i : Int)
  | Bool (b : Bool)
  | Mult (l r : Exp)
  | Plus (l r : Exp)
  | And (l r : Exp)
  | Or (l r : Exp)
  deriving DecidableEq, Repr

/-- Go: the six `pretty()` methods.  `Num.pretty` is `strconv.Itoa`, i.e. the
decimal rendering of the integer, embedded as `Int.repr`. -/
def pretty : Exp → String
  | Exp.Bool x => if x then "true" else "false"
  | Exp.Num x => Int.repr x
  | Exp.Mult e0 e1 => "(" ++ pretty e0 ++ "*" ++ pretty e1 ++ ")"
  | Exp.Plus e0 e1 => "(" ++ pretty e0 ++ "+" ++ pretty e1 ++ ")"
  | Exp.And e0 e1 => "(" ++ pretty e0 ++ "&&" ++ pretty e1 ++ ")"
  | Exp.Or e0 e1 => "(" ++ pretty e0 ++ "||" ++ pretty e1 ++ ")"

/-- Go: the six `eval()` methods.  Both children are always evaluated first;
machine arithmetic wraps around (`wrapInt`). -/
def eval : Exp → Val
  | Exp.Num x => mkInt x
  | Exp.Bool x => mkBool x
  | Exp.Mult e0 e1 =>
    let n1 := eval e0
    let n2 := eval e1
    if n1.flag = Kind.ValueInt ∧ n2.flag = Kind.ValueInt then
      mkInt (wrapInt (n1.valI * n2.valI))
    else
      mkUndefined
  | Exp.Plus e0 e1 =>
    let n1 := eval e0
    let n2 := eval e1
    if n1.flag = Kind.ValueInt ∧ n2.flag = Kind.ValueInt then
      mkInt (wrapInt (n1.valI + n2.valI))
    else
      mkUndefined
  | Exp.And e0 e1 =>
    let b1 := eval e0
    let b2 := eval e1
    if b1.flag = Kind.ValueBool ∧ b1.valB = false then
      mkBool false
    else if b1.flag = Kind.ValueBool ∧ b2.flag = Kind.ValueBool then
      mkBool (b1.valB && b2.valB)
    else
      mkUndefined
  | Exp.Or e0 e1 =>
    let b1 := eval e0
    let b2 := eval e1
    if b1.flag = Kind.ValueBool ∧ b1.valB = true then
      mkBool true
    else if b1.flag = Kind.ValueBool ∧ b2.flag = Kind.ValueBool then
      mkBool (b1.valB || b2.valB)
    else
      mkUndefined

/-- Go: `func showVal(v Val) string` — a `switch` on the tag whose three cases
are exhaustive over `Kind`. -/
def showVal (v : Val) : String :=
  match v.flag with
  | Kind.ValueInt => pretty (Exp.Num v.valI)
  | Kind.ValueBool => pretty (Exp.Bool v.valB)
  | Kind.Undefined => "Undefined"

/-- Number of binary nodes (`Mult`/`Plus`/`And`/`Or`) in a tree. -/
def binCount : Exp → Nat
  | Exp.Num _ => 0
  | Exp.Bool _ => 0
  | Exp.Mult e0 e1 => binCount e0 + binCount e1 + 1
  | Exp.Plus e0 e1 => binCount e0 + binCount e1 + 1
  | Exp.And e0 e1 => binCount e0 + binCount e1 + 1
  | Exp.Or e0 e1 => binCount e0 + binCount e1 + 1

/-- Number of `Mult` nodes in a tree. -/
def multCount : Exp → Nat
  | Exp.Num _ => 0
  | Exp.Bool _ => 0
  | Exp.Mult e0 e1 => multCount e0 + multCount e1 + 1
  | Exp.Plus e0 e1 => multCount e0 + multCount e1
  | Exp.And e0 e1 => multCount e0 + multCount e1
  | Exp.Or e0 e1 => multCount e0 + multCount e1

/-- Number of `Plus` nodes in a tree. -/
def plusCount : Exp → Nat
  | Exp.Num _ => 0
  | Exp.Bool _ => 0
  | Exp.Mult e0 e1 => plusCount e0 + plusCount e1
  | Exp.Plus e0 e1 => plusCount e0 + plusCount e1 + 1
  | Exp.And e0 e1 => plusCount e0 + plusCount e1
  | Exp.Or e0 e1 => plusCount e0 + plusCount e1

/-- Number of `And` nodes in a tree. -/
def andCount : Exp → Nat
  | Exp.Num _ => 0
  | Exp.Bool _ => 0
  | Exp.Mult e0 e1 => andCount e0 + andCount e1
  | Exp.Plus e0 e1 => andCount e0 + andCount e1
  | Exp.And e0 e1 => andCount e0 + andCount e1 + 1
  | Exp.Or e0 e1 => andCount e0 + andCount e1

/-- Number of `Or` nodes in a tree. -/
def orCount : Exp → Nat
  | Exp.Num _ => 0
  | Exp.Bool _ => 0
  | Exp.Mult e0 e1 => orCount e0 + orCount e1
  | Exp.Plus e0 e1 => orCount e0 + orCount e1
  | Exp.And e0 e1 => orCount e0 + orCount e1
  | Exp.Or e0 e1 => orCount e0 + orCount e1 + 1

/-- Occurrences of the character `c` in the string `s`. -/
def countChar (c : Char) (s : String) : Nat := s.data.count c

/-! ### Helper lemmas -/

lemma eval_Mult_def (l r : Exp) :
    eval (Exp.Mult l r) =
      if (eval l).flag = Kind.ValueInt ∧ (eval r).flag = Kind.ValueInt then
        mkInt (wrapInt ((eval l).valI * (eval r).valI))
      else mkUndefined := rfl

lemma eval_Plus_def (l r : Exp) :
    eval (Exp.Plus l r) =
      if (eval l).flag = Kind.ValueInt ∧ (eval r).flag = Kind.ValueInt then
        mkInt (wrapInt ((eval l).valI + (eval r).valI))
      else mkUndefined := rfl

lemma eval_And_def (l r : Exp) :
    eval (Exp.And l r) =
      if (eval l).flag = Kind.ValueBool ∧ (eval l).valB = false then
        mkBool false
      else if (eval l).flag = Kind.ValueBool ∧ (eval r).flag = Kind.ValueBool then
        mkBool ((eval l).valB && (eval r).valB)
      else mkUndefined := rfl

lemma eval_Or_def (l r : Exp) :
    eval (Exp.Or l r) =
      if (eval l).flag = Kind.ValueBool ∧ (eval l).valB = true then
        mkBool true
      else if (eval l).flag = Kind.ValueBool ∧ (eval r).flag = Kind.ValueBool then
        mkBool ((eval l).valB || (eval r).valB)
      else mkUndefined := rfl

/-- Every evaluation result is one of the three canonical constructor images. -/
lemma evalShape (e : Exp) :
    (∃ i, eval e = mkInt i) ∨ (∃ b, eval e = mkBool b) ∨ eval e = mkUndefined := by
  cases e with
  | Num i => exact Or.inl ⟨i, rfl⟩
  | Bool b => exact Or.inr (Or.inl ⟨b, rfl⟩)
  | Mult l r =>
    rw [eval_Mult_def]
    split
    · exact Or.inl ⟨_, rfl⟩
    · exact Or.inr (Or.inr rfl)
  | Plus l r =>
    rw [eval_Plus_def]
    split
    · exact Or.inl ⟨_, rfl⟩
    · exact Or.inr (Or.inr rfl)
  | And l r =>
    rw [eval_And_def]
    split
    · exact Or.inr (Or.inl ⟨_, rfl⟩)
    · split
      · exact Or.inr (Or.inl ⟨_, rfl⟩)
      · exact Or.inr (Or.inr rfl)
  | Or l r =>
    rw [eval_Or_def]
    split
    · exact Or.inr (Or.inl ⟨_, rfl⟩)
    · split
      · exact Or.inr (Or.inl ⟨_, rfl⟩)
      · exact Or.inr (Or.inr rfl)

/-- Wrap-around is the identity on machine-representable integers. -/
lemma wrapInt_eq_self {n : Int} (h : inIntRange n) : wrapInt n = n := by
  rcases h with ⟨h1, h2⟩
  unfold wrapInt
  rw [Int.emod_eq_of_lt (by omega) (by omega)]
  omega

/-- Wrap-around always lands in the machine-representable range. -/
lemma inIntRange_wrapInt (n : Int) : inIntRange (wrapInt n) := by
  unfold wrapInt inIntRange
  have h1 : 0 ≤ (n + 2 ^ 63) % 2 ^ 64 := Int.emod_nonneg _ (by norm_num)
  have h2 : (n + 2 ^ 63) % 2 ^ 64 < 2 ^ 64 := Int.emod_lt_of_pos _ (by norm_num)
  omega

/-- The ten decimal digit characters. -/
def decDigits : List Char := ['0', '1', '2', '3', '4', '5', '6', '7', '8', '9']

/-- The characters a decimal integer rendering may contain. -/
def numChars : List Char := '-' :: decDigits

lemma digitChar_mem_decDigits (m : Nat) (hm : m < 10) : Nat.digitChar m ∈ decDigits := by
  interval_cases m <;> decide

lemma toDigitsCore_chars (fuel : Nat) : ∀ (n : Nat) (ds : List Char),
    ∀ c ∈ Nat.toDigitsCore 10 fuel n ds, c ∈ ds ∨ c ∈ decDigits := by
  induction fuel with
  | zero => intro n ds c hc; exact Or.inl hc
  | succ fuel ih =>
    intro n ds c hc
    simp only [Nat.toDigitsCore] at hc
    have hd : Nat.digitChar (n % 10) ∈ decDigits :=
      digitChar_mem_decDigits _ (Nat.mod_lt n (by decide))
    split at hc
    · rcases List.mem_cons.mp hc with h | h
      · exact Or.inr (h ▸ hd)
      · exact Or.inl h
    · rcases ih (n / 10) (Nat.digitChar (n % 10) :: ds) c hc with h | h
      · rcases List.mem_cons.mp h with h' | h'
        · exact Or.inr (h' ▸ hd)
        · exact Or.inl h'
      · exact Or.inr h

lemma natRepr_chars (n : Nat) : ∀ c ∈ (Nat.repr n).data, c ∈ decDigits := by
  intro c hc
  have hdata : (Nat.repr n).data = Nat.toDigitsCore 10 (n + 1) n [] := rfl
  rw [hdata] at hc
  rcases toDigitsCore_chars (n + 1) n [] c hc with h | h
  · cases h
  · exact h

lemma intRepr_chars (i : Int) : ∀ c ∈ (Int.repr i).data, c ∈ numChars := by
  intro c hc
  cases i with
  | ofNat m => exact List.mem_cons_of_mem _ (natRepr_chars m c hc)
  | negSucc m =>
    have hdata : (Int.repr (Int.negSucc m)).data = '-' :: (Nat.repr (m + 1)).data := rfl
    rw [hdata] at hc
    rcases List.mem_cons.mp hc with h | h
    · exact h ▸ List.mem_cons_self _ _
    · exact List.mem_cons_of_mem _ (natRepr_chars (m + 1) c h)

lemma countChar_intRepr (c : Char) (hc : c ∉ numChars) (i : Int) :
    countChar c (Int.repr i) = 0 :=
  List.count_eq_zero.mpr (fun hmem => hc (intRepr_chars i c hmem))

lemma countChar_append (c : Char) (s t : String) :
    countChar c (s ++ t) = countChar c s + countChar c t := by
  cases s with
  | mk a =>
    cases t with
    | mk b =>
      show (List.append a b).count c = a.count c + b.count c
      exact List.count_append c a b

lemma intRepr_ne_undefinedString (i : Int) : Int.repr i ≠ "Undefined" := by
  intro h
  have hU : 'U' ∈ (Int.repr i).data := by rw [h]; decide
  exact absurd (intRepr_chars i 'U' hU) (by decide)

lemma countChar_pretty_lparen (e : Exp) : countChar '(' (pretty e) = binCount e := by
  induction e with
  | Num i =>
    simp only [pretty, binCount]
    exact countChar_intRepr '(' (by decide) i
  | Bool b => cases b <;> decide
  | Mult l r ihl ihr =>
    simp only [pretty, countChar_append, ihl, ihr, binCount,
      show countChar '(' "(" = 1 from rfl, show countChar '(' "*" = 0 from rfl,
      show countChar '(' ")" = 0 from rfl]
    omega
  | Plus l r ihl ihr =>
    simp only [pretty, countChar_append, ihl, ihr, binCount,
      show countChar '(' "(" = 1 from rfl, show countChar '(' "+" = 0 from rfl,
      show countChar '(' ")" = 0 from rfl]
    omega
  | And l r ihl ihr =>
    simp only [pretty, countChar_append, ihl, ihr, binCount,
      show countChar '(' "(" = 1 from rfl, show countChar '(' "&&" = 0 from rfl,
      show countChar '(' ")" = 0 from rfl]
    omega
  | Or l r ihl ihr =>
    simp only [pretty, countChar_append, ihl, ihr, binCount,
      show countChar '(' "(" = 1 from rfl, show countChar '(' "||" = 0 from rfl,
      show countChar '(' ")" = 0 from rfl]
    omega

lemma countChar_pretty_rparen (e : Exp) : countChar ')' (pretty e) = binCount e := by
  induction e with
  | Num i =>
    simp only [pretty, binCount]
    exact countChar_intRepr ')' (by decide) i
  | Bool b => cases b <;> decide
  | Mult l r ihl ihr =>
    simp only [pretty, countChar_append, ihl, ihr, binCount,
      show countChar ')' "(" = 0 from rfl, show countChar ')' "*" = 0 from rfl,
      show countChar ')' ")" = 1 from rfl]
    omega
  | Plus l r ihl ihr =>
    simp only [pretty, countChar_append, ihl, ihr, binCount,
      show countChar ')' "(" = 0 from rfl, show countChar ')' "+" = 0 from rfl,
      show countChar ')' ")" = 1 from rfl]
    omega
  | And l r ihl ihr =>
    simp only [pretty, countChar_append, ihl, ihr, binCount,
      show countChar ')' "(" = 0 from rfl, show countChar ')' "&&" = 0 from rfl,
      show countChar ')' ")" = 1 from rfl]
    omega
  | Or l r ihl ihr =>
    simp only [pretty, countChar_append, ihl, ihr, binCount,
      show countChar ')' "(" = 0 from rfl, show countChar ')' "||" = 0 from rfl,
      show countChar ')' ")" = 1 from rfl]
    omega

lemma countChar_pretty_plus (e : Exp) : countChar '+' (pretty e) = plusCount e := by
  induction e with
  | Num i =>
    simp only [pretty, plusCount]
    exact countChar_intRepr '+' (by decide) i
  | Bool b => cases b <;> decide
  | Mult l r ihl ihr =>
    simp only [pretty, countChar_append, ihl, ihr, plusCount,
      show countChar '+' "(" = 0 from rfl, show countChar '+' "*" = 0 from rfl,
      show countChar '+' ")" = 0 from rfl]
    omega
  | Plus l r ihl ihr =>
    simp only [pretty, countChar_append, ihl, ihr, plusCount,
      show countChar '+' "(" = 0 from rfl, show countChar '+' "+" = 1 from rfl,
      show countChar '+' ")" = 0 from rfl]
    omega
  | And l r ihl ihr =>
    simp only [pretty, countChar_append, ihl, ihr, plusCount,
      show countChar '+' "(" = 0 from rfl, show countChar '+' "&&" = 0 from rfl,
      show countChar '+' ")" = 0 from rfl]
    omega
  | Or l r ihl ihr =>
    simp only [pretty, countChar_append, ihl, ihr, plusCount,
      show countChar '+' "(" = 0 from rfl, show countChar '+' "||" = 0 from rfl,
      show countChar '+' ")" = 0 from rfl]
    omega

lemma countChar_pretty_star (e : Exp) : countChar '*' (pretty e) = multCount e := by
  induction e with
  | Num i =>
    simp only [pretty, multCount]
    exact countChar_intRepr '*' (by decide) i
  | Bool b => cases b <;> decide
  | Mult l r ihl ihr =>
    simp only [pretty, countChar_append, ihl, ihr, multCount,
      show countChar '*' "(" = 0 from rfl, show countChar '*' "*" = 1 from rfl,
      show countChar '*' ")" = 0 from rfl]
    omega
  | Plus l r ihl ihr =>
    simp only [pretty, countChar_append, ihl, ihr, multCount,
      show countChar '*' "(" = 0 from rfl, show countChar '*' "+" = 0 from rfl,
      show countChar '*' ")" = 0 from rfl]
    omega
  | And l r ihl ihr =>
    simp only [pretty, countChar_append, ihl, ihr, multCount,
      show countChar '*' "(" = 0 from rfl, show countChar '*' "&&" = 0 from rfl,
      show countChar '*' ")" = 0 from rfl]
    omega
  | Or l r ihl ihr =>
    simp only [pretty, countChar_append, ihl, ihr, multCount,
      show countChar '*' "(" = 0 from rfl, show countChar '*' "||" = 0 from rfl,
      show countChar '*' ")" = 0 from rfl]
    omega

lemma countChar_pretty_amp (e : Exp) : countChar '&' (pretty e) = 2 * andCount e := by
  induction e with
  | Num i =>
    simp only [pretty, andCount]
    rw [countChar_intRepr '&' (by decide) i]
  | Bool b => cases b <;> decide
  | Mult l r ihl ihr =>
    simp only [pretty, countChar_append, ihl, ihr, andCount,
      show countChar '&' "(" = 0 from rfl, show countChar '&' "*" = 0 from rfl,
      show countChar '&' ")" = 0 from rfl]
    omega
  | Plus l r ihl ihr =>
    simp only [pretty, countChar_append, ihl, ihr, andCount,
      show countChar '&' "(" = 0 from rfl, show countChar '&' "+" = 0 from rfl,
      show countChar '&' ")" = 0 from rfl]
    omega
  | And l r ihl ihr =>
    simp only [pretty, countChar_append, ihl, ihr, andCount,
      show countChar '&' "(" = 0 from rfl, show countChar '&' "&&" = 2 from rfl,
      show countChar '&' ")" = 0 from rfl]
    omega
  | Or l r ihl ihr =>
    simp only [pretty, countChar_append, ihl, ihr, andCount,
      show countChar '&' "(" = 0 from rfl, show countChar '&' "||" = 0 from rfl,
      show countChar '&' ")" = 0 from rfl]
    omega

lemma countChar_pretty_bar (e : Exp) : countChar '|' (pretty e) = 2 * orCount e := by
  induction e with
  | Num i =>
    simp only [pretty, orCount]
    rw [countChar_intRepr '|' (by decide) i]
  | Bool b => cases b <;> decide
  | Mult l r ihl ihr =>
    simp only [pretty, countChar_append, ihl, ihr, orCount,
      show countChar '|' "(" = 0 from rfl, show countChar '|' "*" = 0 from rfl,
      show countChar '|' ")" = 0 from rfl]
    omega
  | Plus l r ihl ihr =>
    simp only [pretty, countChar_append, ihl, ihr, orCount,
      show countChar '|' "(" = 0 from rfl, show countChar '|' "+" = 0 from rfl,
      show countChar '|' ")" = 0 from rfl]
    omega
  | And l r ihl ihr =>
    simp only [pretty, countChar_append, ihl, ihr, orCount,
      show countChar '|' "(" = 0 from rfl, show countChar '|' "&&" = 0 from rfl,
      show countChar '|' ")" = 0 from rfl]
    omega
  | Or l r ihl ihr =>
    simp only [pretty, countChar_append, ihl, ihr, orCount,
      show countChar '|' "(" = 0 from rfl, show countChar '|' "||" = 2 from rfl,
      show countChar '|' ")" = 0 from rfl]
    omega

/-! ### Claim theorems -/

/-- C1: `eval (And l r)` is `BoolVal false` whenever the left result is
`BoolVal false`, regardless of the right result's tag; otherwise, if both
results are `BoolVal`, it is the `BoolVal` of their conjunction; in every
remaining case it is `UndefinedVal`.  In particular
`eval (And (Bool false) (Num 1)) = BoolVal false`. -/
theorem and_eval_semantics (l r : Exp) :
    ((eval l).flag = Kind.ValueBool → (eval l).valB = false →
      eval (Exp.And l r) = mkBool false) ∧
    ((eval l).flag = Kind.ValueBool → (eval r).flag = Kind.ValueBool →
      eval (Exp.And l r) = mkBool ((eval l).valB && (eval r).valB)) ∧
    (¬ ((eval l).flag = Kind.ValueBool ∧ (eval l).valB = false) →
      ¬ ((eval l).flag = Kind.ValueBool ∧ (eval r).flag = Kind.ValueBool) →
      eval (Exp.And l r) = mkUndefined) ∧
    eval (Exp.And (Exp.Bool false) (Exp.Num 1)) = mkBool false := by
  refine ⟨?_, ?_, ?_, by decide⟩
  · intro h1 h2
    rw [eval_And_def, if_pos ⟨h1, h2⟩]
  · intro h1 h2
    rw [eval_And_def]
    by_cases hf : (eval l).valB = false
    · rw [if_pos ⟨h1, hf⟩, hf, Bool.false_and]
    · rw [if_neg (fun h => hf h.2), if_pos ⟨h1, h2⟩]
  · intro hn1 hn2
    rw [eval_And_def, if_neg hn1, if_neg hn2]

theorem and_eval_semantics_witness :
    eval (Exp.And (Exp.Bool false) (Exp.Num 1)) = mkBool false ∧
    eval (Exp.And (Exp.Bool true) (Exp.Bool true)) = mkBool true ∧
    eval (Exp.And (Exp.Bool true) (Exp.Num 1)) = mkUndefined :=
  ⟨(and_eval_semantics (Exp.Bool false) (Exp.Num 1)).1 (by decide) (by decide),
   ((and_eval_semantics (Exp.Bool true) (Exp.Bool true)).2.1
      (by decide) (by decide)).trans (by decide),
   (and_eval_semantics (Exp.Bool true) (Exp.Num 1)).2.2.1 (by decide) (by decide)⟩

/-- C2: `eval (Or l r)` is `BoolVal true` whenever the left result is
`BoolVal true`, regardless of the right result's tag; otherwise, if both
results are `BoolVal`, it is the `BoolVal` of their disjunction; in every
remaining case it is `UndefinedVal`.  In particular
`eval (Or (Bool true) (Num 1)) = BoolVal true`,
`eval (Or (Bool false) (Bool false)) = BoolVal false` and
`eval (Or (Bool false) (Num 1)) = UndefinedVal`. -/
theorem or_eval_semantics (l r : Exp) :
    ((eval l).flag = Kind.ValueBool → (eval l).valB = true →
      eval (Exp.Or l r) = mkBool true) ∧
    ((eval l).flag = Kind.ValueBool → (eval r).flag = Kind.ValueBool →
      eval (Exp.Or l r) = mkBool ((eval l).valB || (eval r).valB)) ∧
    (¬ ((eval l).flag = Kind.ValueBool ∧ (eval l).valB = true) →
      ¬ ((eval l).flag = Kind.ValueBool ∧ (eval r).flag = Kind.ValueBool) →
      eval (Exp.Or l r) = mkUndefined) ∧
    eval (Exp.Or (Exp.Bool true) (Exp.Num 1)) = mkBool true ∧
    eval (Exp.Or (Exp.Bool false) (Exp.Bool false)) = mkBool false ∧
    eval (Exp.Or (Exp.Bool false) (Exp.Num 1)) = mkUndefined := by
  refine ⟨?_, ?_, ?_, by decide, by decide, by decide⟩
  · intro h1 h2
    rw [eval_Or_def, if_pos ⟨h1, h2⟩]
  · intro h1 h2
    rw [eval_Or_def]
    by_cases ht : (eval l).valB = true
    · rw [if_pos ⟨h1, ht⟩, ht, Bool.true_or]
    · rw [if_neg (fun h => ht h.2), if_pos ⟨h1, h2⟩]
  · intro hn1 hn2
    rw [eval_Or_def, if_neg hn1, if_neg hn2]

theorem or_eval_semantics_witness :
    eval (Exp.Or (Exp.Bool true) (Exp.Num 1)) = mkBool true ∧
    eval (Exp.Or (Exp.Bool false) (Exp.Bool false)) = mkBool false ∧
    eval (Exp.Or (Exp.Bool false) (Exp.Num 1)) = mkUndefined :=
  ⟨(or_eval_semantics (Exp.Bool true) (Exp.Num 1)).1 (by decide) (by decide),
   ((or_eval_semantics (Exp.Bool false) (Exp.Bool false)).2.1
      (by decide) (by decide)).trans (by decide),
   (or_eval_semantics (Exp.Bool false) (Exp.Num 1)).2.2.1 (by decide) (by decide)⟩

/-- C3: `eval (Plus l r)` is the `IntVal` of the (machine) sum of the child
results when both are `IntVal` and `UndefinedVal` otherwise; `Mult` obeys the
identical rule with multiplication; there is no masking, e.g.
`eval (Plus (Bool true) (Num 1)) = UndefinedVal`. -/
theorem arith_eval_semantics (l r : Exp) :
    ((eval l).flag = Kind.ValueInt → (eval r).flag = Kind.ValueInt →
      eval (Exp.Plus l r) = mkInt (wrapInt ((eval l).valI + (eval r).valI)) ∧
      eval (Exp.Mult l r) = mkInt (wrapInt ((eval l).valI * (eval r).valI))) ∧
    (¬ ((eval l).flag = Kind.ValueInt ∧ (eval r).flag = Kind.ValueInt) →
      eval (Exp.Plus l r) = mkUndefined ∧ eval (Exp.Mult l r) = mkUndefined) ∧
    eval (Exp.Plus (Exp.Bool true) (Exp.Num 1)) = mkUndefined ∧
    eval (Exp.Mult (Exp.Bool true) (Exp.Num 1)) = mkUndefined := by
  refine ⟨fun h1 h2 => ⟨?_, ?_⟩, fun hn => ⟨?_, ?_⟩, by decide, by decide⟩
  · rw [eval_Plus_def, if_pos ⟨h1, h2⟩]
  · rw [eval_Mult_def, if_pos ⟨h1, h2⟩]
  · rw [eval_Plus_def, if_neg hn]
  · rw [eval_Mult_def, if_neg hn]

theorem arith_eval_semantics_witness :
    eval (Exp.Plus (Exp.Num 2) (Exp.Num 3)) = mkInt 5 ∧
    eval (Exp.Plus (Exp.Num 2) (Exp.Bool true)) = mkUndefined :=
  ⟨((arith_eval_semantics (Exp.Num 2) (Exp.Num 3)).1
      (by decide) (by decide)).1.trans (by decide),
   ((arith_eval_semantics (Exp.Num 2) (Exp.Bool true)).2.1 (by decide)).1⟩

/-- C4: for all integers `a`, `b`, `eval (Plus (Num a) (Num b))` is the
`IntVal` of `a + b` computed in the implementation's machine arithmetic
(wrap-around modulo `2 ^ 64` at the width of Go's `int`), and likewise for
`Mult` with `a * b`; when the exact result is machine-representable this is
the exact `IntVal (a + b)` resp. `IntVal (a * b)`. -/
theorem arith_eval_num (a b : Int) :
    eval (Exp.Plus (Exp.Num a) (Exp.Num b)) = mkInt (wrapInt (a + b)) ∧
    eval (Exp.Mult (Exp.Num a) (Exp.Num b)) = mkInt (wrapInt (a * b)) ∧
    inIntRange (wrapInt (a + b)) ∧
    inIntRange (wrapInt (a * b)) ∧
    (inIntRange (a + b) → eval (Exp.Plus (Exp.Num a) (Exp.Num b)) = mkInt (a + b)) ∧
    (inIntRange (a * b) → eval (Exp.Mult (Exp.Num a) (Exp.Num b)) = mkInt (a * b)) := by
  have hp : eval (Exp.Plus (Exp.Num a) (Exp.Num b)) = mkInt (wrapInt (a + b)) := by
    rw [eval_Plus_def, if_pos ⟨rfl, rfl⟩,
      show (eval (Exp.Num a)).valI = a from rfl, show (eval (Exp.Num b)).valI = b from rfl]
  have hm : eval (Exp.Mult (Exp.Num a) (Exp.Num b)) = mkInt (wrapInt (a * b)) := by
    rw [eval_Mult_def, if_pos ⟨rfl, rfl⟩,
      show (eval (Exp.Num a)).valI = a from rfl, show (eval (Exp.Num b)).valI = b from rfl]
  exact ⟨hp, hm, inIntRange_wrapInt _, inIntRange_wrapInt _,
    fun h => by rw [hp, wrapInt_eq_self h],
    fun h => by rw [hm, wrapInt_eq_self h]⟩

theorem arith_eval_num_witness :
    eval (Exp.Plus (Exp.Num 2) (Exp.Num 3)) = mkInt (2 + 3) ∧
    eval (Exp.Mult (Exp.Num 2) (Exp.Num 3)) = mkInt (2 * 3) :=
  ⟨(arith_eval_num 2 3).2.2.2.2.1 (by decide),
   (arith_eval_num 2 3).2.2.2.2.2 (by decide)⟩

/-- C5: `pretty` follows the structural recursion exactly: `Num i` renders as
the decimal string of `i`, `Bool b` as `"true"` or `"false"`, and each binary
node as `"(" ++ pretty l ++ op ++ pretty r ++ ")"` with the operator token of
the node kind.  In particular
`pretty (Plus (Mult (Num 1) (Num 2)) (Num 0)) = "((1*2)+0)"`. -/
theorem pretty_spec :
    (∀ i : Int, pretty (Exp.Num i) = Int.repr i) ∧
    pretty (Exp.Num 12) = "12" ∧
    pretty (Exp.Num 0) = "0" ∧
    pretty (Exp.Num (-3)) = "-3" ∧
    (∀ b : Bool, pretty (Exp.Bool b) = if b then "true" else "false") ∧
    (∀ l r : Exp, pretty (Exp.Plus l r) = "(" ++ pretty l ++ "+" ++ pretty r ++ ")") ∧
    (∀ l r : Exp, pretty (Exp.Mult l r) = "(" ++ pretty l ++ "*" ++ pretty r ++ ")") ∧
    (∀ l r : Exp, pretty (Exp.And l r) = "(" ++ pretty l ++ "&&" ++ pretty r ++ ")") ∧
    (∀ l r : Exp, pretty (Exp.Or l r) = "(" ++ pretty l ++ "||" ++ pretty r ++ ")") ∧
    pretty (Exp.Plus (Exp.Mult (Exp.Num 1) (Exp.Num 2)) (Exp.Num 0)) = "((1*2)+0)" :=
  ⟨fun _ => rfl, by decide, by decide, by decide, fun _ => rfl,
   fun _ _ => rfl, fun _ _ => rfl, fun _ _ => rfl, fun _ _ => rfl, by decide⟩

/-- C6: `pretty` and `eval` are total pure functions of the input tree: both
are accepted as structural recursions, and on every finite `Exp` tree
`pretty` returns a string and `eval` returns a `Val` that is one of the three
canonical tagged outcomes — type mismatches surface only as the
`UndefinedVal` data value, never as a failure path. -/
theorem pretty_eval_total (e : Exp) :
    (∃ s : String, pretty e = s) ∧
    ((∃ i, eval e = mkInt i) ∨ (∃ b, eval e = mkBool b) ∨ eval e = mkUndefined) :=
  ⟨⟨pretty e, rfl⟩, evalShape e⟩

/-- C7: the output of `pretty` is well-shaped: the number of `'('` characters
equals the number of `')'` characters equals the number of binary nodes, and
each operator character occurs exactly as often as the corresponding binary
node kind (`'+'` once per `Plus`, `'*'` once per `Mult`, `'&'` and `'|'`
twice per `And` resp. `Or`, the two-character tokens `&&`/`||`). -/
theorem pretty_paren_op_shape (e : Exp) :
    countChar '(' (pretty e) = binCount e ∧
    countChar ')' (pretty e) = binCount e ∧
    countChar '+' (pretty e) = plusCount e ∧
    countChar '*' (pretty e) = multCount e ∧
    countChar '&' (pretty e) = 2 * andCount e ∧
    countChar '|' (pretty e) = 2 * orCount e :=
  ⟨countChar_pretty_lparen e, countChar_pretty_rparen e, countChar_pretty_plus e,
   countChar_pretty_star e, countChar_pretty_amp e, countChar_pretty_bar e⟩

/-- C8: evaluation uses exactly one non-exceptional error representation:
every result carries one of the three tags, an `UndefinedVal` child
propagates unconditionally through `Plus`/`Mult`, an ill-typed left operand
propagates through `And`/`Or`, and a deciding left boolean masks the right
child in `And`/`Or` — all as data flow, never as an exception. -/
theorem eval_error_representation (l r e : Exp) :
    ((eval e).flag = Kind.ValueInt ∨ (eval e).flag = Kind.ValueBool ∨
      (eval e).flag = Kind.Undefined) ∧
    ((eval l).flag = Kind.Undefined ∨ (eval r).flag = Kind.Undefined →
      eval (Exp.Plus l r) = mkUndefined ∧ eval (Exp.Mult l r) = mkUndefined) ∧
    ((eval l).flag = Kind.Undefined →
      eval (Exp.And l r) = mkUndefined ∧ eval (Exp.Or l r) = mkUndefined) ∧
    (eval l = mkBool false → eval (Exp.And l r) = mkBool false) ∧
    (eval l = mkBool true → eval (Exp.Or l r) = mkBool true) := by
  refine ⟨?_, ?_, ?_, ?_, ?_⟩
  · cases h : (eval e).flag
    · exact Or.inl rfl
    · exact Or.inr (Or.inl rfl)
    · exact Or.inr (Or.inr rfl)
  · intro hu
    have hn : ¬ ((eval l).flag = Kind.ValueInt ∧ (eval r).flag = Kind.ValueInt) := by
      rintro ⟨h1, h2⟩
      rcases hu with h | h
      · rw [h] at h1; cases h1
      · rw [h] at h2; cases h2
    exact ⟨by rw [eval_Plus_def, if_neg hn], by rw [eval_Mult_def, if_neg hn]⟩
  · intro hu
    have hnb : (eval l).flag ≠ Kind.ValueBool := by rw [hu]; decide
    exact ⟨by rw [eval_And_def, if_neg (fun h => hnb h.1), if_neg (fun h => hnb h.1)],
      by rw [eval_Or_def, if_neg (fun h => hnb h.1), if_neg (fun h => hnb h.1)]⟩
  · intro h
    rw [eval_And_def, h, if_pos ⟨rfl, rfl⟩]
  · intro h
    rw [eval_Or_def, h, if_pos ⟨rfl, rfl⟩]

theorem eval_error_representation_witness :
    eval (Exp.Plus (Exp.Plus (Exp.Bool true) (Exp.Num 1)) (Exp.Num 0)) = mkUndefined ∧
    eval (Exp.And (Exp.Bool false) (Exp.Num 1)) = mkBool false :=
  ⟨((eval_error_representation (Exp.Plus (Exp.Bool true) (Exp.Num 1)) (Exp.Num 0)
      (Exp.Num 0)).2.1 (Or.inl (by decide))).1,
   (eval_error_representation (Exp.Bool false) (Exp.Num 1) (Exp.Num 0)).2.2.2.1
     (by decide)⟩

/-- C9: `showVal` maps every `Val` by its tag: the undefined tag to
`"Undefined"`, an integer value to the decimal rendering of its payload and a
boolean value to `"true"`/`"false"` (both exactly as `pretty` renders the
corresponding literal); for every expression, the display of the evaluation
result is `"Undefined"` exactly when the result is `UndefinedVal`. -/
theorem showVal_spec (v : Val) (i : Int) (b : Bool) (e : Exp) :
    (v.flag = Kind.Undefined → showVal v = "Undefined") ∧
    showVal (mkInt i) = pretty (Exp.Num i) ∧
    showVal (mkBool b) = pretty (Exp.Bool b) ∧
    (showVal (eval e) = "Undefined" ↔ eval e = mkUndefined) := by
  refine ⟨?_, rfl, rfl, ?_, ?_⟩
  · intro h
    simp [showVal, h]
  · intro h
    rcases evalShape e with ⟨j, hj⟩ | ⟨c, hc⟩ | hu
    · rw [hj] at h
      exact absurd h (intRepr_ne_undefinedString j)
    · rw [hc] at h
      cases c
      · exact absurd h (by decide)
      · exact absurd h (by decide)
    · exact hu
  · intro h
    rw [h]
    rfl

theorem showVal_spec_witness : showVal mkUndefined = "Undefined" :=
  (showVal_spec mkUndefined 0 false (Exp.Num 0)).1 rfl

/-- C10: the short-circuit masking of `And`/`Or` is strictly left-biased: a
left result that is not `BoolVal` makes the node `UndefinedVal` for every
right operand, even a deciding boolean on the right; e.g.
`eval (And (Num 1) (Bool false)) = UndefinedVal` while the mirrored tree
evaluates to `BoolVal false`. -/
theorem shortcircuit_left_biased (l r : Exp) :
    ((eval l).flag ≠ Kind.ValueBool →
      eval (Exp.And l r) = mkUndefined ∧ eval (Exp.Or l r) = mkUndefined) ∧
    eval (Exp.And (Exp.Num 1) (Exp.Bool false)) = mkUndefined ∧
    eval (Exp.Or (Exp.Num 1) (Exp.Bool true)) = mkUndefined ∧
    eval (Exp.And (Exp.Bool false) (Exp.Num 1)) = mkBool false ∧
    eval (Exp.Or (Exp.Bool true) (Exp.Num 1)) = mkBool true := by
  refine ⟨fun hnb => ⟨?_, ?_⟩, by decide, by decide, by decide, by decide⟩
  · rw [eval_And_def, if_neg (fun h => hnb h.1), if_neg (fun h => hnb h.1)]
  · rw [eval_Or_def, if_neg (fun h => hnb h.1), if_neg (fun h => hnb h.1)]

theorem shortcircuit_left_biased_witness :
    eval (Exp.And (Exp.Num 1) (Exp.Bool false)) = mkUndefined ∧
    eval (Exp.Or (Exp.Num 1) (Exp.Bool true)) = mkUndefined :=
  ⟨((shortcircuit_left_biased (Exp.Num 1) (Exp.Bool false)).1 (by decide)).1,
   ((shortcircuit_left_biased (Exp.Num 1) (Exp.Bool true)).1 (by decide)).2⟩

end SWPGo
